import Mathlib

/-!
Verification of the comment-thread manager, pagination engine and related
handlers of the Focus blog server, shallowly embedded from the TypeScript
sources.  Document collections are lists of records, MongoDB single-document
updates are explicit list transformations, and fallible request handlers
return the updated collection together with an `Except` result so that the
"no document was written" part of an error path is a provable equation.
-/

namespace Focus

/-- Error taxonomy raised by the handlers: `CannotFindException` maps to
`notFound`, `ForbiddenException` to `forbidden`, validation failures
(class-validator / `ValidAuthorName`) to `badRequest`. -/
inductive Err where
  | notFound
  | forbidden
  | badRequest
deriving DecidableEq, Repr

/-- `CommentRefTypes` from the comment model: a comment references a Post or a
Note. -/
inductive CommentRefTypes where
  | Post
  | Note
deriving DecidableEq, Repr

/-- `CommentState` enum: Unread = 0, Read = 1, Junk = 2. -/
inductive CommentState where
  | Unread
  | Read
  | Junk
deriving DecidableEq, Repr

/-- The fields of the validated `CommentDto` body: author, text, mail, url and
an optional state (the master-only endpoints pass `state: CommentState.Read`).
The DTO has no `ref`, `refType`, `parent`, `key` or `commentsIndex` field. -/
structure CommentDto where
  author : String
  text : String
  mail : String
  url : String
  state : Option CommentState
deriving DecidableEq, Repr

/-- The part of `IpRecord` (`@IpLocation()`) that is spread into the stored
comment document. -/
structure IpRecord where
  ip : String
deriving DecidableEq, Repr

/-- A stored comment document, with the layout
`{_id, ref, refType, parent?, children, commentsIndex, key, state, author,
text, mail, url, ip}`.  The schema defaults applied by `createNew` are
`children = []`, `commentsIndex = 0`, `state = Unread`.  Note that the layout
has no `pid` field. -/
structure CommentDoc where
  id : String
  ref : String
  refType : CommentRefTypes
  parent : Option String
  children : List String
  commentsIndex : Nat
  key : String
  state : CommentState
  author : String
  text : String
  mail : String
  url : String
  ip : String
deriving DecidableEq, Repr

/-- `findById` of the base service: first document whose `_id` matches. -/
def findById (db : List CommentDoc) (i : String) : Option CommentDoc :=
  db.find? (fun c => c.id == i)

/-- A MongoDB single-document update (`updateOne` / `document.updateOne`):
apply `f` to the first document whose `_id` matches, leave the rest alone. -/
def updateFirst (db : List CommentDoc) (i : String) (f : CommentDoc → CommentDoc) :
    List CommentDoc :=
  match db with
  | [] => []
  | c :: rest => if c.id == i then f c :: rest else c :: updateFirst rest i f

/-- The reply document built by `replyByCid` (src/unnamed/part_002):
`{ parent, ref: parent.ref._id, refType: parent.refType, ...body,
...ipLocation, key }`, completed by the schema defaults on insertion.  The
spread of the validated `CommentDto` supplies author/text/mail/url and an
optional state; it contains no ref/refType field, so the values derived from
the parent stand. -/
def mkReplyModel (newId : String) (parent : CommentDoc) (body : CommentDto)
    (loc : IpRecord) (key : String) : CommentDoc :=
  { id := newId
    ref := parent.ref
    refType := parent.refType
    parent := some parent.id
    children := []
    commentsIndex := 0
    key := key
    state := body.state.getD CommentState.Unread
    author := body.author
    text := body.text
    mail := body.mail
    url := body.url
    ip := loc.ip }

/-- The atomic parent mutation issued by `replyByCid` (src/unnamed/part_002
lines 190-202): one `updateOne` carrying `$push: {children: comment._id}`,
`$inc: {commentsIndex: 1}` and a `state` value computed client-side from the
stale `parent` snapshot and the created comment. -/
def replyUpdate (parentSnap : CommentDoc) (child : CommentDoc) :
    CommentDoc → CommentDoc :=
  fun p =>
    { p with
      children := p.children ++ [child.id]
      commentsIndex := p.commentsIndex + 1
      state :=
        if child.state = CommentState.Read ∧ parentSnap.state ≠ CommentState.Read
        then CommentState.Read else parentSnap.state }

/-- The atomic parent mutation issued by the older controller
(src/src/shared/comments/comments.controller.ts lines 177-184): one
`updateOne` carrying only `$push: {children: res._id}` and
`$inc: {commentsIndex: 1}`. -/
def replyUpdateV0 (child : CommentDoc) : CommentDoc → CommentDoc :=
  fun p =>
    { p with
      children := p.children ++ [child.id]
      commentsIndex := p.commentsIndex + 1 }

/-- `replyByCid` of src/unnamed/part_002 (apps/server tree): author validation
for guests, parent lookup (`CannotFindException` when absent), child key
`parent.key + "#" + parent.commentsIndex`, insertion of the child, then the
single atomic parent update.  `validAuthor` abstracts the
`ValidAuthorName` service check (spec: `BadInput` on a malformed author
name); `newId` is the generated ObjectId of the new document.  Returns the
collection after the call and the HTTP outcome. -/
def replyByCid (validAuthor : String → Bool) (newId : String)
    (db : List CommentDoc) (i : String) (body : CommentDto)
    (isMaster : Bool) (loc : IpRecord) :
    List CommentDoc × Except Err String :=
  if !isMaster && !(validAuthor body.author) then
    (db, Except.error Err.badRequest)
  else
    match findById db i with
    | none => (db, Except.error Err.notFound)
    | some parent =>
      let commentIndex := parent.commentsIndex
      let key := parent.key ++ "#" ++ toString commentIndex
      let model := mkReplyModel newId parent body loc key
      let db1 := db ++ [model]
      let db2 := updateFirst db1 parent.id (replyUpdate parent model)
      (db2, Except.ok "回复成功!")

/-- `replyByCid` of the older controller
(src/src/shared/comments/comments.controller.ts lines 147-187): identical
control flow, but the child key is `parent.key + "#" + (commentsIndex + 1)`
and the parent update does not touch `state`. -/
def replyByCidV0 (validAuthor : String → Bool) (newId : String)
    (db : List CommentDoc) (i : String) (body : CommentDto)
    (isMaster : Bool) (loc : IpRecord) :
    List CommentDoc × Except Err String :=
  if !isMaster && !(validAuthor body.author) then
    (db, Except.error Err.badRequest)
  else
    match findById db i with
    | none => (db, Except.error Err.notFound)
    | some parent =>
      let commentIndex := parent.commentsIndex
      let key := parent.key ++ "#" ++ toString (commentIndex + 1)
      let model := mkReplyModel newId parent body loc key
      let db1 := db ++ [model]
      let db2 := updateFirst db1 parent.id (replyUpdateV0 model)
      (db2, Except.ok "回复成功!")

/-- Modelled from the spec: `CommentsService.createComment` is not under
`src/` (only its caller is).  Per spec §4.3 the service validates that the
target exists (`NotFound` when absent) and inserts a new root comment whose
`key` is its own generated id and whose `parent` is empty; the `Forbidden`
check of §4.3 is visibly performed by the caller itself
(src/unnamed/part_002 lines 121-128), so it is not duplicated here. -/
def createComment (targetExists : String → CommentRefTypes → Bool)
    (newId : String) (db : List CommentDoc) (i : String)
    (rt : CommentRefTypes) (body : CommentDto) (loc : IpRecord) :
    List CommentDoc × Except Err CommentDoc :=
  if targetExists i rt then
    let doc : CommentDoc :=
      { id := newId
        ref := i
        refType := rt
        parent := none
        children := []
        commentsIndex := 0
        key := newId
        state := body.state.getD CommentState.Unread
        author := body.author
        text := body.text
        mail := body.mail
        url := body.url
        ip := loc.ip }
    (db ++ [doc], Except.ok doc)
  else
    (db, Except.error Err.notFound)

/-- Truth value of the expression `!Master` in the guard of the `comment`
handler (src/unnamed/part_002 line 126): `Master` there is the imported
parameter-decorator function, a non-null JavaScript value, so `!Master`
evaluates to `false` on every request. -/
def notMasterImport : Bool := false

/-- The `comment` handler of src/unnamed/part_002 (lines 105-151): guest
author validation, then the guard
`if (!(await allowComment(id, ref || Post)) && !Master) throw Forbidden`,
then creation via the service.  The fire-and-forget spam check and
notifications happen after the response and are outside this sequential
embedding. -/
def comment (validAuthor : String → Bool)
    (allowComment : String → CommentRefTypes → Bool)
    (targetExists : String → CommentRefTypes → Bool)
    (newId : String) (db : List CommentDoc) (i : String)
    (body : CommentDto) (isMaster : Bool) (loc : IpRecord)
    (refQ : Option CommentRefTypes) :
    List CommentDoc × Except Err CommentDoc :=
  if !isMaster && !(validAuthor body.author) then
    (db, Except.error Err.badRequest)
  else
    let ref := refQ.getD CommentRefTypes.Post
    if !(allowComment i ref) && notMasterImport then
      (db, Except.error Err.forbidden)
    else
      createComment targetExists newId db i ref body loc

/-- Result shape of a MongoDB `updateOne`: matched count and modified count. -/
structure UpdateResult where
  n : Nat
  nModified : Nat
deriving DecidableEq, Repr

/-- `updateAsync({_id: id}, {state})` of the base service: update the first
matching document; zero matches is not an error, the caller inspects the
counts (spec §4.1). -/
def updateAsync (db : List CommentDoc) (i : String) (st : CommentState) :
    List CommentDoc × UpdateResult :=
  match findById db i with
  | none => (db, { n := 0, nModified := 0 })
  | some c =>
    (updateFirst db i (fun d => { d with state := st }),
     { n := 1, nModified := if c.state = st then 0 else 1 })

/-- `modifyCommentState` of src/unnamed/part_002 (lines 265-284): runs
`updateAsync({_id: id}, {state})` inside try/catch.  The update itself never
throws for a well-formed id, so the handler returns the update result and the
catch branch is unreachable; no state transition is inspected or refused. -/
def modifyCommentState (db : List CommentDoc) (i : String) (st : CommentState) :
    List CommentDoc × Except Err UpdateResult :=
  let r := updateAsync db i st
  (r.1, Except.ok r.2)

/-- A stored content item (Post or Note) as far as the visibility claims need
it: hide flag, optional access password, creation stamp (an abstract integer
timestamp). -/
structure ContentDoc where
  id : String
  title : String
  text : String
  hide : Bool
  password : Option String
  created : Int
deriving DecidableEq, Repr

/-- `addConditionToSeeHideContent` (src/src/shared/utils/index.ts lines 1-7)
returns either `{$or: [{hide: false}, {hide: true}]}` for the master or
`{hide: false, password: undefined}` for a guest.  The three components of
the returned filter object are modelled structurally: an optional `$or` over
two `hide` values, an optional `hide` equality, and whether a
`password: undefined` clause is present. -/
structure VisibilityCondition where
  hideOr : Option (Bool × Bool)
  hideEq : Option Bool
  passwordUndef : Bool
deriving DecidableEq, Repr

def addConditionToSeeHideContent (isMaster : Bool) : VisibilityCondition :=
  if isMaster then
    { hideOr := some (false, true), hideEq := none, passwordUndef := false }
  else
    { hideOr := none, hideEq := some false, passwordUndef := true }

/-- Modelled from the spec: the persistence gateway executing the filter is
not under `src/` (spec §4.1, `findWithPaginator(filter, ...)` executes a
filtered query).  A document matches the visibility filter when it satisfies
each clause present; per the data model (§3) the `password: undefined` clause
admits exactly the documents whose optional password is absent. -/
def matchesVisibility (cond : VisibilityCondition) (d : ContentDoc) : Bool :=
  (match cond.hideOr with
   | none => true
   | some (a, b) => d.hide == a || d.hide == b) &&
  (match cond.hideEq with
   | none => true
   | some v => d.hide == v) &&
  (!cond.passwordUndef || d.password.isNone)

/-- `yearCondition` (src/src/shared/utils/index.ts): `{}` when `year` is
falsy, otherwise a `created` range between `new Date(year,1,1)` and
`new Date(year+1,1,1)`; `toDate` abstracts the Date construction as a
timestamp. -/
def yearCondition (toDate : Int → Int) (year : Option Int) :
    Option (Int × Int) :=
  match year with
  | none => none
  | some y => if y = 0 then none else some (toDate y, toDate (y + 1))

/-- A document matches the (optional) `created` range clause. -/
def matchesYear (range : Option (Int × Int)) (d : ContentDoc) : Bool :=
  match range with
  | none => true
  | some (lo, hi) => lo ≤ d.created && d.created ≤ hi

/-- The `{limit, skip}` window handed to `findWithPaginator` by the listing
endpoints. -/
structure PageOptions where
  limit : Nat
  skip : Nat
deriving DecidableEq, Repr

/-- Window built by `getCommentsByRefId`
(src/src/shared/comments/comments.controller.ts lines 76-88):
`{limit: size, skip: (page - 1) * size}`. -/
def getCommentsByRefIdOptions (page size : Nat) : PageOptions :=
  { limit := size, skip := (page - 1) * size }

/-- Window built by the posts `getAll` (src/unnamed/part_004 lines 44-57). -/
def getAllPostsOptions (page size : Nat) : PageOptions :=
  { limit := size, skip := (page - 1) * size }

/-- Window built by `getNotes`
(src/src/shared/notes/notes.controller.ts lines 52-64). -/
def getNotesOptions (page size : Nat) : PageOptions :=
  { limit := size, skip := (page - 1) * size }

/-- Modelled from the spec: the base service's `findWithPaginator` is not
under `src/`.  Per §4.1/§4.3 it executes the filtered, sorted query bounded
by `skip`/`limit`; `sortFn` abstracts the sort step (any reordering of the
filtered rows). -/
def findWithPaginator (sortFn : List ContentDoc → List ContentDoc)
    (db : List ContentDoc) (cond : ContentDoc → Bool) (opts : PageOptions) :
    List ContentDoc :=
  ((sortFn (db.filter cond)).drop opts.skip).take opts.limit

/-- Rows returned by the posts `getAll` (src/unnamed/part_004 lines 44-57):
filter `{...addConditionToSeeHideContent(isMaster), ...yearCondition(year)}`
with the `{limit: size, skip: (page-1)*size}` window. -/
def getAllData (sortFn : List ContentDoc → List ContentDoc)
    (db : List ContentDoc) (isMaster : Bool) (toDate : Int → Int)
    (year : Option Int) (page size : Nat) : List ContentDoc :=
  findWithPaginator sortFn db
    (fun d =>
      matchesVisibility (addConditionToSeeHideContent isMaster) d &&
      matchesYear (yearCondition toDate year) d)
    (getAllPostsOptions page size)

/-- Rows returned by `getNotes`
(src/src/shared/notes/notes.controller.ts lines 52-64): same filter shape as
the posts listing. -/
def getNotesData (sortFn : List ContentDoc → List ContentDoc)
    (db : List ContentDoc) (isMaster : Bool) (toDate : Int → Int)
    (year : Option Int) (page size : Nat) : List ContentDoc :=
  findWithPaginator sortFn db
    (fun d =>
      matchesVisibility (addConditionToSeeHideContent isMaster) d &&
      matchesYear (yearCondition toDate year) d)
    (getNotesOptions page size)

/-- Field lookup on a stored comment document, for filters written with
literal field names.  The comment layout (§6) has `_id`, `ref`, `parent`,
`key`, ... but no `pid` field, so a `pid` lookup yields `none`. -/
def commentFieldVal (c : CommentDoc) (f : String) : Option String :=
  if f = "_id" then some c.id
  else if f = "ref" then some c.ref
  else if f = "parent" then c.parent
  else if f = "key" then some c.key
  else none

/-- A MongoDB equality filter `{f: v}` with a non-null value `v` matches a
document exactly when the field is present with that value. -/
def matchesEq (c : CommentDoc) (f : String) (v : String) : Bool :=
  commentFieldVal c f == some v

/-- `deleteOne({_id: id})` on the post collection: remove the first match. -/
def deleteOnePost (posts : List ContentDoc) (i : String) : List ContentDoc :=
  match posts with
  | [] => []
  | p :: rest => if p.id == i then rest else p :: deleteOnePost rest i

/-- `PostsService.deletePost` (src/unnamed/part_005 lines 38-44): delete the
post by `_id`, then `commentModel.deleteMany({pid: id})`. -/
def deletePost (posts : List ContentDoc) (comments : List CommentDoc)
    (i : String) : List ContentDoc × List CommentDoc :=
  (deleteOnePost posts i, comments.filter (fun c => !(matchesEq c "pid" i)))

/-- `findOne({_id: id})` on the post collection. -/
def findPostById (posts : List ContentDoc) (i : String) : Option ContentDoc :=
  posts.find? (fun p => p.id == i)

/-- Validation of the `size` field of the `Pager` DTO
(src/apps/server/src/shared/analyze/analyze.controller.ts lines 166-186):
`@Transform(parseInt) @IsOptional() @IsNumber() @Max(50) @Min(1)`.  Under
class-validator semantics these decorators are constraints: an absent value
passes, a present value outside [1,50] fails validation and the request is
rejected with a BadRequest error; no decorator rewrites the value. -/
def validatePagerSize (size : Option Int) : Except Err (Option Int) :=
  match size with
  | none => Except.ok none
  | some v =>
    if 1 ≤ v ∧ v ≤ 50 then Except.ok (some v) else Except.error Err.badRequest

/-- The clamping behaviour asserted by the spec ("size=0 → clamp to 1;
size=1000 → clamp to 50"), written from the spec's words for comparison with
`validatePagerSize`. -/
def specClampSize (v : Int) : Int := max 1 (min 50 v)

/-- Boolean success test on an `Except` outcome. -/
def isOkE {α : Type} (e : Except Err α) : Bool :=
  match e with
  | Except.ok _ => true
  | Except.error _ => false

/-- One in-flight `replyByCid` request in the interleaving model for the
concurrency claim: its generated child id, its body, its client location, a
program counter over the three steps of the handler (0: `findById` the
parent, 1: `createNew` the child, 2: the atomic parent `updateOne`; 3:
finished), and the parent snapshot read at step 0. -/
structure ReplyThread where
  cid : String
  body : CommentDto
  loc : IpRecord
  pc : Nat
  snap : Option CommentDoc
deriving DecidableEq, Repr

def initThread (cid : String) (body : CommentDto) (loc : IpRecord) :
    ReplyThread :=
  { cid := cid, body := body, loc := loc, pc := 0, snap := none }

/-- The child document a thread inserts, given its parent snapshot:
exactly the `mkReplyModel` of `replyByCid` with the key computed from the
snapshot. -/
def threadChild (t : ReplyThread) (parentSnap : CommentDoc) : CommentDoc :=
  mkReplyModel t.cid parentSnap t.body t.loc
    (parentSnap.key ++ "#" ++ toString parentSnap.commentsIndex)

/-- One atomic step of an in-flight reply against the shared collection.
Step 0 reads the parent, step 1 inserts the child document, step 2 issues the
single atomic `$push`+`$inc` parent update; a missing parent aborts the
thread (`CannotFindException`). -/
def stepThread (pid : String) (db : List CommentDoc) (t : ReplyThread) :
    List CommentDoc × ReplyThread :=
  match t.pc with
  | 0 => (db, { t with snap := findById db pid, pc := 1 })
  | 1 =>
    match t.snap with
    | none => (db, { t with pc := 3 })
    | some parentSnap => (db ++ [threadChild t parentSnap], { t with pc := 2 })
  | 2 =>
    match t.snap with
    | none => (db, { t with pc := 3 })
    | some parentSnap =>
      (updateFirst db parentSnap.id
        (replyUpdate parentSnap (threadChild t parentSnap)),
       { t with pc := 3 })
  | _ => (db, t)

/-- Run two in-flight replies under an arbitrary schedule: `true` lets the
first thread take its next atomic step, `false` the second.  Every
interleaving of the two sequential handlers is some schedule. -/
def execSched (pid : String) : List Bool → List CommentDoc → ReplyThread →
    ReplyThread → List CommentDoc × ReplyThread × ReplyThread
  | [], db, ta, tb => (db, ta, tb)
  | true :: s, db, ta, tb =>
    let r := stepThread pid db ta
    execSched pid s r.1 r.2 tb
  | false :: s, db, ta, tb =>
    let r := stepThread pid db tb
    execSched pid s r.1 ta r.2

/-- Number of completed parent updates contributed by a thread. -/
def doneCount (t : ReplyThread) : Nat := if 3 ≤ t.pc then 1 else 0

/-- Invariant of the two-reply interleaving: the parent row is present, its
`commentsIndex` is the base value plus one per completed update, each child
id occurs in `children` exactly once per completed update, and a thread past
its read step holds a snapshot of the parent row. -/
def ReplyInv (pid c1 c2 : String) (n : Nat) (ta tb : ReplyThread)
    (db : List CommentDoc) : Prop :=
  ta.cid = c1 ∧ tb.cid = c2 ∧ ta.pc ≤ 3 ∧ tb.pc ≤ 3 ∧
  (∃ p, findById db pid = some p ∧ p.id = pid ∧
    p.commentsIndex = n + doneCount ta + doneCount tb ∧
    p.children.count c1 = doneCount ta ∧
    p.children.count c2 = doneCount tb) ∧
  (1 ≤ ta.pc → ∃ q, ta.snap = some q ∧ q.id = pid) ∧
  (1 ≤ tb.pc → ∃ q, tb.snap = some q ∧ q.id = pid)

/-- The raw reply request body as a client may send it: the validated DTO
fields plus possible extra `ref`/`refType` members. -/
structure RawCommentBody where
  dto : CommentDto
  refField : Option String
  refTypeField : Option CommentRefTypes
deriving DecidableEq, Repr

/-- Modelled from the spec: request validation is an external collaborator
("a Resource Controller receives a validated request", §2) and the
`CommentDto` declaration is not under `src/`; validation passes through the
declared DTO fields and strips members that are not part of the DTO, in
particular any client-supplied `ref`/`refType`. -/
def validateCommentBody (r : RawCommentBody) : CommentDto := r.dto

/-! Concrete sample data used to instantiate the theorems below. -/

def sampleParent : CommentDoc :=
  { id := "p1", ref := "post9", refType := CommentRefTypes.Post,
    parent := none, children := [], commentsIndex := 0, key := "p1",
    state := CommentState.Unread, author := "A", text := "hi",
    mail := "a@example.com", url := "", ip := "127.0.0.1" }

def sampleDb : List CommentDoc := [sampleParent]

def sampleBody : CommentDto :=
  { author := "B", text := "yo", mail := "b@example.com", url := "",
    state := none }

def sampleLoc : IpRecord := { ip := "127.0.0.1" }

def anyAuthor : String → Bool := fun _ => true

def denyComments : String → CommentRefTypes → Bool := fun _ _ => false

def targetAlways : String → CommentRefTypes → Bool := fun _ _ => true

def idSort : List ContentDoc → List ContentDoc := fun l => l

def sampleToDate : Int → Int := fun y => y

def samplePost : ContentDoc :=
  { id := "post9", title := "t", text := "x", hide := false,
    password := none, created := 5 }

def samplePosts : List ContentDoc := [samplePost]

def sampleRefComment : CommentDoc :=
  { id := "c9", ref := "post9", refType := CommentRefTypes.Post,
    parent := none, children := [], commentsIndex := 0, key := "c9",
    state := CommentState.Read, author := "A", text := "hi",
    mail := "a@example.com", url := "", ip := "127.0.0.1" }

def sampleComments : List CommentDoc := [sampleRefComment]

def sampleRaw1 : RawCommentBody :=
  { dto := sampleBody, refField := none, refTypeField := none }

def sampleRaw2 : RawCommentBody :=
  { dto := sampleBody, refField := some "other",
    refTypeField := some CommentRefTypes.Note }

/-! Helper lemmas about `findById` and `updateFirst`. -/

lemma findById_some_id {db : List CommentDoc} {i : String} {c : CommentDoc}
    (h : findById db i = some c) : c.id = i := by
  have h2 : db.find? (fun x => x.id == i) = some c := h
  have hp := List.find?_some h2
  simpa using hp

lemma findById_mem {db : List CommentDoc} {i : String} {c : CommentDoc}
    (h : findById db i = some c) : c ∈ db := by
  have h2 : db.find? (fun x => x.id == i) = some c := h
  exact List.mem_of_find?_eq_some h2

lemma findById_append_left {db l2 : List CommentDoc} {i : String}
    {c : CommentDoc} (h : findById db i = some c) :
    findById (db ++ l2) i = some c := by
  have h2 : db.find? (fun x => x.id == i) = some c := h
  show (db ++ l2).find? (fun x => x.id == i) = some c
  rw [List.find?_append, h2]
  rfl

lemma findById_append_fresh {db : List CommentDoc} {i : String}
    {y : CommentDoc} (hfresh : ∀ x ∈ db, x.id ≠ i) (hy : y.id = i) :
    findById (db ++ [y]) i = some y := by
  induction db with
  | nil => simp [findById, List.find?, hy]
  | cons d rest ih =>
    have hd : (d.id == i) = false := by
      simpa using hfresh d (List.mem_cons_self d rest)
    have ih2 := ih (fun x hx => hfresh x (List.mem_cons_of_mem d hx))
    simpa [findById, List.find?, hd] using ih2

lemma findById_updateFirst_eq {db : List CommentDoc} {i : String}
    {c : CommentDoc} {f : CommentDoc → CommentDoc}
    (h : findById db i = some c) (hf : ∀ x, (f x).id = x.id) :
    findById (updateFirst db i f) i = some (f c) := by
  induction db with
  | nil => simp [findById, List.find?] at h
  | cons d rest ih =>
    by_cases hd : (d.id == i) = true
    · have hc : d = c := by
        have h2 : (d :: rest).find? (fun x => x.id == i) = some c := h
        simpa [List.find?, hd] using h2
      subst hc
      have hfd : ((f d).id == i) = true := by
        simp only [hf]; exact hd
      simp [updateFirst, findById, List.find?, hd, hfd]
    · have h2 : findById rest i = some c := by
        have h3 : (d :: rest).find? (fun x => x.id == i) = some c := h
        simpa [List.find?, hd] using h3
      have ih2 := ih h2
      simpa [updateFirst, findById, List.find?, hd] using ih2

lemma findById_updateFirst_ne {db : List CommentDoc} {i j : String}
    {f : CommentDoc → CommentDoc} (hne : j ≠ i)
    (hf : ∀ x, (f x).id = x.id) :
    findById (updateFirst db i f) j = findById db j := by
  induction db with
  | nil => simp [updateFirst]
  | cons d rest ih =>
    by_cases hd : (d.id == i) = true
    · have hdi : d.id = i := by simpa using hd
      have hdj : (d.id == j) = false := by
        simp [hdi]; exact fun hji => hne hji.symm
      have hfdj : ((f d).id == j) = false := by
        simp only [hf]; exact hdj
      simp [updateFirst, findById, List.find?, hd, hdj, hfdj]
    · by_cases hdj : (d.id == j) = true
      · simp [updateFirst, findById, List.find?, hd, hdj]
      · have ih2 := ih
        simpa [updateFirst, findById, List.find?, hd, hdj] using ih2

lemma replyUpdate_id (parentSnap child : CommentDoc) :
    ∀ x, (replyUpdate parentSnap child x).id = x.id := by
  intro x; rfl

lemma replyUpdateV0_id (child : CommentDoc) :
    ∀ x, (replyUpdateV0 child x).id = x.id := by
  intro x; rfl

/-- Semantics of "insert the fresh child, then update the first parent
match": the child is retrievable by its fresh id, and the parent row now
holds the updated value. -/
lemma insert_update_sem {db : List CommentDoc} {i newId : String}
    {p model : CommentDoc} {upd : CommentDoc → CommentDoc}
    (hfind : findById db i = some p)
    (hfresh : ∀ c ∈ db, c.id ≠ newId)
    (hmodel : model.id = newId)
    (hupd : ∀ x, (upd x).id = x.id) :
    findById (updateFirst (db ++ [model]) p.id upd) newId = some model ∧
    findById (updateFirst (db ++ [model]) p.id upd) i = some (upd p) := by
  have hpid : p.id = i := findById_some_id hfind
  have hni : newId ≠ i := by
    intro h
    exact hfresh p (findById_mem hfind) (h ▸ hpid)
  constructor
  · rw [findById_updateFirst_ne (hpid ▸ hni) hupd]
    exact findById_append_fresh hfresh hmodel
  · rw [hpid]
    exact findById_updateFirst_eq (findById_append_left hfind) hupd

/-- Successful run of `replyByCid`: with a valid author and an existing
parent, the handler inserts the child model keyed
`parent.key + "#" + parent.commentsIndex` and applies the atomic parent
update. -/
lemma replyByCid_run {validAuthor : String → Bool} {newId i : String}
    {db : List CommentDoc} {body : CommentDto} {isMaster : Bool}
    {loc : IpRecord} {p : CommentDoc}
    (hauth : isMaster = true ∨ validAuthor body.author = true)
    (hfind : findById db i = some p) :
    replyByCid validAuthor newId db i body isMaster loc =
      (updateFirst
        (db ++ [mkReplyModel newId p body loc
          (p.key ++ "#" ++ toString p.commentsIndex)])
        p.id
        (replyUpdate p
          (mkReplyModel newId p body loc
            (p.key ++ "#" ++ toString p.commentsIndex))),
       Except.ok "回复成功!") := by
  have hcond : (!isMaster && !(validAuthor body.author)) = false := by
    rcases hauth with h | h <;> simp [h]
  simp [replyByCid, hcond, hfind]

/-- Successful run of the older `replyByCid`, whose child key suffix is
`commentsIndex + 1`. -/
lemma replyByCidV0_run {validAuthor : String → Bool} {newId i : String}
    {db : List CommentDoc} {body : CommentDto} {isMaster : Bool}
    {loc : IpRecord} {p : CommentDoc}
    (hauth : isMaster = true ∨ validAuthor body.author = true)
    (hfind : findById db i = some p) :
    replyByCidV0 validAuthor newId db i body isMaster loc =
      (updateFirst
        (db ++ [mkReplyModel newId p body loc
          (p.key ++ "#" ++ toString (p.commentsIndex + 1))])
        p.id
        (replyUpdateV0
          (mkReplyModel newId p body loc
            (p.key ++ "#" ++ toString (p.commentsIndex + 1)))),
       Except.ok "回复成功!") := by
  have hcond : (!isMaster && !(validAuthor body.author)) = false := by
    rcases hauth with h | h <;> simp [h]
  simp [replyByCidV0, hcond, hfind]

/-! Interleaving-invariant lemmas for the concurrency claim. -/

lemma ReplyInv_swap {pid c1 c2 : String} {n : Nat} {ta tb : ReplyThread}
    {db : List CommentDoc} (h : ReplyInv pid c1 c2 n ta tb db) :
    ReplyInv pid c2 c1 n tb ta db := by
  obtain ⟨ha, hb, hpa, hpb, ⟨p, hp, hpid, hidx, hc1, hc2⟩, hsa, hsb⟩ := h
  exact ⟨hb, ha, hpb, hpa, ⟨p, hp, hpid, by omega, hc2, hc1⟩, hsb, hsa⟩

lemma stepThread_inv {pid c1 c2 : String} {n : Nat} {ta tb : ReplyThread}
    {db : List CommentDoc} (hne : c1 ≠ c2)
    (hinv : ReplyInv pid c1 c2 n ta tb db) :
    ReplyInv pid c1 c2 n (stepThread pid db ta).2 tb (stepThread pid db ta).1 ∧
    (stepThread pid db ta).2.pc = min 3 (ta.pc + 1) := by
  obtain ⟨ha, hb, hpa, hpb, ⟨p, hp, hpid, hidx, hc1, hc2⟩, hsa, hsb⟩ := hinv
  have hcases : ta.pc = 0 ∨ ta.pc = 1 ∨ ta.pc = 2 ∨ ta.pc = 3 := by omega
  rcases hcases with h0 | h1 | h2 | h3
  · -- read step: the snapshot becomes the live parent row
    have hstep : stepThread pid db ta =
        (db, { ta with snap := findById db pid, pc := 1 }) := by
      simp [stepThread, h0]
    rw [hstep]
    constructor
    · refine ⟨ha, hb, by simp, hpb, ⟨p, hp, hpid, ?_, ?_, hc2⟩, ?_, hsb⟩
      · simpa [doneCount, h0] using hidx
      · simpa [doneCount, h0] using hc1
      · intro _; exact ⟨p, by simp [hp], hpid⟩
    · simp [h0]
  · -- create step: append the fresh child document, parent row untouched
    obtain ⟨q, hq, hqid⟩ := hsa (by omega)
    have hstep : stepThread pid db ta =
        (db ++ [threadChild ta q], { ta with pc := 2 }) := by
      simp [stepThread, h1, hq]
    rw [hstep]
    constructor
    · refine ⟨ha, hb, by simp, hpb,
        ⟨p, findById_append_left hp, hpid, ?_, ?_, hc2⟩, ?_, hsb⟩
      · simpa [doneCount, h1] using hidx
      · simpa [doneCount, h1] using hc1
      · intro _; exact ⟨q, by simp [hq], hqid⟩
    · simp [h1]
  · -- update step: the single atomic push + increment on the parent row
    obtain ⟨q, hq, hqid⟩ := hsa (by omega)
    have hupd := replyUpdate_id q (threadChild ta q)
    have hfound : findById db q.id = some p := by rw [hqid]; exact hp
    have hstep : stepThread pid db ta =
        (updateFirst db q.id (replyUpdate q (threadChild ta q)),
         { ta with pc := 3 }) := by
      simp [stepThread, h2, hq]
    rw [hstep]
    have hcid : (threadChild ta q).id = c1 := by
      simp [threadChild, mkReplyModel, ha]
    have hda : doneCount ta = 0 := by simp [doneCount, h2]
    constructor
    · refine ⟨ha, hb, by simp, hpb,
        ⟨replyUpdate q (threadChild ta q) p, ?_, ?_, ?_, ?_, ?_⟩, ?_, hsb⟩
      · have h5 := findById_updateFirst_eq hfound hupd
        rw [hqid] at h5 ⊢
        exact h5
      · simpa [replyUpdate] using hpid
      · show (replyUpdate q (threadChild ta q) p).commentsIndex =
          n + doneCount { ta with pc := 3 } + doneCount tb
        simp only [replyUpdate, doneCount]
        simp only [doneCount] at hidx hda
        simp
        omega
      · show List.count c1 (replyUpdate q (threadChild ta q) p).children =
          doneCount { ta with pc := 3 }
        simp only [replyUpdate]
        rw [hcid, List.count_append, hc1, hda]
        simp [doneCount]
      · show List.count c2 (replyUpdate q (threadChild ta q) p).children =
          doneCount tb
        simp only [replyUpdate]
        rw [hcid, List.count_append, hc2]
        have hz : List.count c2 [c1] = 0 := by
          simp [List.count_cons, beq_iff_eq]
          exact fun h => absurd h hne
        rw [hz]
        omega
      · intro _; exact ⟨q, by simp [hq], hqid⟩
    · simp [h2]
  · -- finished: no further effect
    have hstep : stepThread pid db ta = (db, ta) := by
      simp [stepThread, h3]
    rw [hstep]
    refine ⟨⟨ha, hb, hpa, hpb, ⟨p, hp, hpid, hidx, hc1, hc2⟩, hsa, hsb⟩, ?_⟩
    rw [h3]
    omega

lemma execSched_inv {pid c1 c2 : String} {n : Nat} (hne : c1 ≠ c2) :
    ∀ (sched : List Bool) (db : List CommentDoc) (ta tb : ReplyThread),
    ReplyInv pid c1 c2 n ta tb db →
    ReplyInv pid c1 c2 n (execSched pid sched db ta tb).2.1
      (execSched pid sched db ta tb).2.2 (execSched pid sched db ta tb).1 ∧
    (execSched pid sched db ta tb).2.1.pc = min 3 (ta.pc + sched.count true) ∧
    (execSched pid sched db ta tb).2.2.pc = min 3 (tb.pc + sched.count false) := by
  intro sched
  induction sched with
  | nil =>
    intro db ta tb hinv
    have hpa := hinv.2.2.1
    have hpb := hinv.2.2.2.1
    refine ⟨hinv, ?_, ?_⟩ <;> simp [execSched] <;> omega
  | cons b s ih =>
    intro db ta tb hinv
    cases b
    · -- second thread steps
      have hinv2 := ReplyInv_swap hinv
      have hstep := stepThread_inv (Ne.symm hne) hinv2
      have hinv3 := ReplyInv_swap hstep.1
      have ihres := ih (stepThread pid db tb).1 ta (stepThread pid db tb).2 hinv3
      have hpc := hstep.2
      obtain ⟨_, _, hpb3, _, _, _, _⟩ := hinv2
      constructor
      · exact ihres.1
      constructor
      · have := ihres.2.1
        simpa [execSched, List.count_cons] using this
      · have h4 := ihres.2.2
        rw [hpc] at h4
        have hcnt : (false :: s).count false = s.count false + 1 := by simp
        simp only [execSched]
        rw [h4, hcnt]
        omega
    · -- first thread steps
      have hstep := stepThread_inv hne hinv
      have ihres := ih (stepThread pid db ta).1 (stepThread pid db ta).2 tb hstep.1
      have hpc := hstep.2
      obtain ⟨_, _, hpa3, _, _, _, _⟩ := hinv
      constructor
      · exact ihres.1
      constructor
      · have h4 := ihres.2.1
        rw [hpc] at h4
        have hcnt : (true :: s).count true = s.count true + 1 := by simp
        simp only [execSched]
        rw [h4, hcnt]
        omega
      · have := ihres.2.2
        simpa [execSched, List.count_cons] using this

lemma findPostById_of_countP_zero {posts : List ContentDoc} {i : String}
    (h : posts.countP (fun p => p.id == i) = 0) :
    findPostById posts i = none := by
  show posts.find? (fun p => p.id == i) = none
  apply List.find?_eq_none.mpr
  intro x hx
  have := List.countP_eq_zero.mp h x hx
  simpa using this

lemma findWithPaginator_guard {sortFn : List ContentDoc → List ContentDoc}
    (hsort : ∀ l, List.Perm (sortFn l) l) {db : List ContentDoc}
    {cond : ContentDoc → Bool} {opts : PageOptions} {d : ContentDoc}
    (hd : d ∈ findWithPaginator sortFn db cond opts) : cond d = true := by
  unfold findWithPaginator at hd
  have h1 := List.take_subset _ _ hd
  have h2 := List.drop_subset _ _ h1
  have h3 := (hsort (db.filter cond)).subset h2
  exact List.of_mem_filter h3

/-- Claim C4: under any interleaving of two concurrent replies to the same
parent P (each reply being the read / create / atomic-update sequence of
`replyByCid`, with the child-list append and the index increment issued as
one single atomic update), afterwards `P.commentsIndex` has increased by
exactly 2 and both child ids occur in `P.children` exactly once: no
increment or list entry is lost. -/
theorem c4_concurrent_replies_atomic (pid c1 c2 : String)
    (b1 b2 : CommentDto) (l1 l2 : IpRecord) (db : List CommentDoc)
    (p : CommentDoc) (sched : List Bool)
    (hfind : findById db pid = some p)
    (h1 : p.children.count c1 = 0) (h2 : p.children.count c2 = 0)
    (hne : c1 ≠ c2)
    (hta : 3 ≤ sched.count true) (htb : 3 ≤ sched.count false) :
    ∃ q, findById (execSched pid sched db (initThread c1 b1 l1)
        (initThread c2 b2 l2)).1 pid = some q ∧
      q.commentsIndex = p.commentsIndex + 2 ∧
      q.children.count c1 = 1 ∧ q.children.count c2 = 1 := by
  have hinit : ReplyInv pid c1 c2 p.commentsIndex (initThread c1 b1 l1)
      (initThread c2 b2 l2) db := by
    refine ⟨rfl, rfl, by simp [initThread], by simp [initThread],
      ⟨p, hfind, findById_some_id hfind, ?_, ?_, ?_⟩, ?_, ?_⟩
    · simp [doneCount, initThread]
    · simpa [doneCount, initThread] using h1
    · simpa [doneCount, initThread] using h2
    · intro h; simp [initThread] at h
    · intro h; simp [initThread] at h
  obtain ⟨hinv, hpca, hpcb⟩ := execSched_inv hne sched db _ _ hinit
  obtain ⟨-, -, -, -, ⟨q, hq, hqid, hidx, hq1, hq2⟩, -, -⟩ := hinv
  have hpca3 : (execSched pid sched db (initThread c1 b1 l1)
      (initThread c2 b2 l2)).2.1.pc = 3 := by
    rw [hpca]; simp [initThread]; omega
  have hpcb3 : (execSched pid sched db (initThread c1 b1 l1)
      (initThread c2 b2 l2)).2.2.pc = 3 := by
    rw [hpcb]; simp [initThread]; omega
  have hda : doneCount (execSched pid sched db (initThread c1 b1 l1)
      (initThread c2 b2 l2)).2.1 = 1 := by
    simp [doneCount, hpca3]
  have hdb : doneCount (execSched pid sched db (initThread c1 b1 l1)
      (initThread c2 b2 l2)).2.2 = 1 := by
    simp [doneCount, hpcb3]
  refine ⟨q, hq, by omega, by omega, by omega⟩

/-- Witness for C4 at a concrete store and schedule. -/
theorem c4_witness :
    ∃ q, findById (execSched "p1" [true, true, true, false, false, false]
        sampleDb (initThread "x1" sampleBody sampleLoc)
        (initThread "x2" sampleBody sampleLoc)).1 "p1" = some q ∧
      q.commentsIndex = sampleParent.commentsIndex + 2 ∧
      q.children.count "x1" = 1 ∧ q.children.count "x2" = 1 :=
  c4_concurrent_replies_atomic "p1" "x1" "x2" sampleBody sampleBody
    sampleLoc sampleLoc sampleDb sampleParent
    [true, true, true, false, false, false]
    (by decide) (by decide) (by decide) (by decide) (by decide) (by decide)

/-- Claim C1 (amended): for an existing parent P with `commentsIndex = n`, a
successful reply creates a child whose key is `P.key + "#" + n` in the
current controller (`replyByCid`, src/unnamed/part_002), and `P.key + "#" +
(n+1)` in the older controller (`replyByCidV0`,
src/src/shared/comments/comments.controller.ts); in both, afterwards
`P.commentsIndex` equals `n + 1` and `P.children` contains the new child's id
exactly once. -/
theorem c1_reply_key_and_parent_update (va : String → Bool) (newId i : String)
    (db : List CommentDoc) (body : CommentDto) (m : Bool) (loc : IpRecord)
    (p : CommentDoc)
    (hfind : findById db i = some p)
    (hfresh : ∀ c ∈ db, c.id ≠ newId)
    (hchild : p.children.count newId = 0)
    (hauth : m = true ∨ va body.author = true) :
    (∃ child, findById (replyByCid va newId db i body m loc).1 newId =
        some child ∧
      child.key = p.key ++ "#" ++ toString p.commentsIndex) ∧
    (∃ p2, findById (replyByCid va newId db i body m loc).1 i = some p2 ∧
      p2.commentsIndex = p.commentsIndex + 1 ∧
      p2.children.count newId = 1) ∧
    (∃ child, findById (replyByCidV0 va newId db i body m loc).1 newId =
        some child ∧
      child.key = p.key ++ "#" ++ toString (p.commentsIndex + 1)) ∧
    (∃ p2, findById (replyByCidV0 va newId db i body m loc).1 i = some p2 ∧
      p2.commentsIndex = p.commentsIndex + 1 ∧
      p2.children.count newId = 1) := by
  have hrun := @replyByCid_run va newId i db body m loc p hauth hfind
  have hrun0 := @replyByCidV0_run va newId i db body m loc p hauth hfind
  have hsem := @insert_update_sem db i newId p
    (mkReplyModel newId p body loc
      (p.key ++ "#" ++ toString p.commentsIndex))
    (replyUpdate p
      (mkReplyModel newId p body loc
        (p.key ++ "#" ++ toString p.commentsIndex)))
    hfind hfresh rfl (replyUpdate_id _ _)
  have hsem0 := @insert_update_sem db i newId p
    (mkReplyModel newId p body loc
      (p.key ++ "#" ++ toString (p.commentsIndex + 1)))
    (replyUpdateV0
      (mkReplyModel newId p body loc
        (p.key ++ "#" ++ toString (p.commentsIndex + 1))))
    hfind hfresh rfl (replyUpdateV0_id _)
  refine ⟨⟨mkReplyModel newId p body loc
      (p.key ++ "#" ++ toString p.commentsIndex), ?_, rfl⟩,
    ⟨replyUpdate p (mkReplyModel newId p body loc
        (p.key ++ "#" ++ toString p.commentsIndex))
      p, ?_, rfl, ?_⟩,
    ⟨mkReplyModel newId p body loc
      (p.key ++ "#" ++ toString (p.commentsIndex + 1)), ?_, rfl⟩,
    ⟨replyUpdateV0 (mkReplyModel newId p body loc
        (p.key ++ "#" ++ toString (p.commentsIndex + 1)))
      p, ?_, rfl, ?_⟩⟩
  · rw [hrun]; exact hsem.1
  · rw [hrun]; exact hsem.2
  · show ((p.children ++ [(mkReplyModel newId p body loc
        (p.key ++ "#" ++ toString p.commentsIndex)).id]).count newId) = 1
    rw [show (mkReplyModel newId p body loc
        (p.key ++ "#" ++ toString p.commentsIndex)).id = newId from rfl]
    rw [List.count_append, hchild]
    simp
  · rw [hrun0]; exact hsem0.1
  · rw [hrun0]; exact hsem0.2
  · show ((p.children ++ [(mkReplyModel newId p body loc
        (p.key ++ "#" ++ toString (p.commentsIndex + 1))).id]).count newId) = 1
    rw [show (mkReplyModel newId p body loc
        (p.key ++ "#" ++ toString (p.commentsIndex + 1))).id = newId from rfl]
    rw [List.count_append, hchild]
    simp

/-- Counterexample for C1 as stated: in the older controller the reply to the
sample parent (whose `commentsIndex` is 0 and key is "p1") is stored with key
"p1#1", not `P.key + "#" + 0`. -/
theorem c1_counterexample :
    (findById (replyByCidV0 anyAuthor "c2" sampleDb "p1" sampleBody true
        sampleLoc).1 "c2").map CommentDoc.key = some "p1#1" ∧
    (findById (replyByCidV0 anyAuthor "c2" sampleDb "p1" sampleBody true
        sampleLoc).1 "c2").map CommentDoc.key ≠
      some (sampleParent.key ++ "#" ++ toString sampleParent.commentsIndex) := by
  constructor
  · decide
  · decide

/-- Witness for C1 at the concrete sample store. -/
theorem c1_witness :
    (∃ child, findById (replyByCid anyAuthor "c2" sampleDb "p1" sampleBody
        true sampleLoc).1 "c2" = some child ∧
      child.key = sampleParent.key ++ "#" ++
        toString sampleParent.commentsIndex) ∧
    (∃ p2, findById (replyByCid anyAuthor "c2" sampleDb "p1" sampleBody
        true sampleLoc).1 "p1" = some p2 ∧
      p2.commentsIndex = sampleParent.commentsIndex + 1 ∧
      p2.children.count "c2" = 1) ∧
    (∃ child, findById (replyByCidV0 anyAuthor "c2" sampleDb "p1" sampleBody
        true sampleLoc).1 "c2" = some child ∧
      child.key = sampleParent.key ++ "#" ++
        toString (sampleParent.commentsIndex + 1)) ∧
    (∃ p2, findById (replyByCidV0 anyAuthor "c2" sampleDb "p1" sampleBody
        true sampleLoc).1 "p1" = some p2 ∧
      p2.commentsIndex = sampleParent.commentsIndex + 1 ∧
      p2.children.count "c2" = 1) :=
  c1_reply_key_and_parent_update anyAuthor "c2" "p1" sampleDb sampleBody
    true sampleLoc sampleParent (by decide) (by decide) (by decide)
    (Or.inl rfl)

/-- Claim C5: replying to an id that matches no existing comment fails with
`NotFound` (after the guest author validation, which itself writes nothing),
and the comment collection is unchanged on every error path of the handler. -/
theorem c5_reply_to_missing_parent (va : String → Bool) (newId i : String)
    (db : List CommentDoc) (body : CommentDto) (m : Bool) (loc : IpRecord)
    (hnone : findById db i = none) :
    (replyByCid va newId db i body m loc).1 = db ∧
    ((m = true ∨ va body.author = true) →
      (replyByCid va newId db i body m loc).2 = Except.error Err.notFound) := by
  by_cases hc : (!m && !(va body.author)) = true
  · constructor
    · simp [replyByCid, hc]
    · intro hauth
      exfalso
      rcases hauth with h | h <;> simp [h] at hc
  · rw [Bool.not_eq_true] at hc
    constructor
    · simp [replyByCid, hc, hnone]
    · intro _
      simp [replyByCid, hc, hnone]

/-- Witness for C5 at a concrete store and missing id. -/
theorem c5_witness :
    (replyByCid anyAuthor "c2" sampleDb "nope" sampleBody false
      sampleLoc).1 = sampleDb ∧
    ((false = true ∨ anyAuthor sampleBody.author = true) →
      (replyByCid anyAuthor "c2" sampleDb "nope" sampleBody false
        sampleLoc).2 = Except.error Err.notFound) :=
  c5_reply_to_missing_parent anyAuthor "c2" "nope" sampleDb sampleBody
    false sampleLoc (by decide)

/-- Claim C6: a stored reply derives `ref` and `refType` from the parent
comment for every client payload: two replies whose raw payloads agree on
the DTO fields and differ only in client-supplied `ref`/`refType` members
store identical `ref`/`refType`, both equal to the parent's. -/
theorem c6_reply_ref_derived_from_parent (va : String → Bool)
    (newId i : String) (db : List CommentDoc) (m : Bool) (loc : IpRecord)
    (r1 r2 : RawCommentBody) (p : CommentDoc)
    (hfind : findById db i = some p)
    (hfresh : ∀ c ∈ db, c.id ≠ newId)
    (hauth1 : m = true ∨ va (validateCommentBody r1).author = true)
    (hauth2 : m = true ∨ va (validateCommentBody r2).author = true)
    (_hdto : r1.dto = r2.dto) :
    ∃ d1 d2,
      findById (replyByCid va newId db i (validateCommentBody r1) m
        loc).1 newId = some d1 ∧
      findById (replyByCid va newId db i (validateCommentBody r2) m
        loc).1 newId = some d2 ∧
      d1.ref = p.ref ∧ d1.refType = p.refType ∧
      d2.ref = d1.ref ∧ d2.refType = d1.refType := by
  have hr1 := @replyByCid_run va newId i db (validateCommentBody r1) m loc p
    hauth1 hfind
  have hr2 := @replyByCid_run va newId i db (validateCommentBody r2) m loc p
    hauth2 hfind
  refine ⟨mkReplyModel newId p (validateCommentBody r1) loc
      (p.key ++ "#" ++ toString p.commentsIndex),
    mkReplyModel newId p (validateCommentBody r2) loc
      (p.key ++ "#" ++ toString p.commentsIndex),
    ?_, ?_, rfl, rfl, rfl, rfl⟩
  · rw [hr1]
    exact (insert_update_sem hfind hfresh rfl (replyUpdate_id _ _)).1
  · rw [hr2]
    exact (insert_update_sem hfind hfresh rfl (replyUpdate_id _ _)).1

/-- Witness for C6 at the concrete sample store with two raw payloads whose
client-supplied ref/refType members differ. -/
theorem c6_witness :
    ∃ d1 d2,
      findById (replyByCid anyAuthor "c2" sampleDb "p1"
        (validateCommentBody sampleRaw1) false sampleLoc).1 "c2" = some d1 ∧
      findById (replyByCid anyAuthor "c2" sampleDb "p1"
        (validateCommentBody sampleRaw2) false sampleLoc).1 "c2" = some d2 ∧
      d1.ref = sampleParent.ref ∧ d1.refType = sampleParent.refType ∧
      d2.ref = d1.ref ∧ d2.refType = d1.refType :=
  c6_reply_ref_derived_from_parent anyAuthor "c2" "p1" sampleDb false
    sampleLoc sampleRaw1 sampleRaw2 sampleParent (by decide) (by decide)
    (Or.inr rfl) (Or.inr rfl) rfl

/-- Claim C2 (code behaviour at the failing input): for a guest request
against a target whose allow-comment predicate is false, the `comment`
handler still creates and returns the comment — the guard
`!(await allowComment(...)) && !Master` can never throw `Forbidden` because
`Master` there is the imported decorator function, so `!Master` is always
false.  At the concrete failing input the handler returns success and the
collection has grown by one document. -/
theorem c2_forbidden_guard_is_dead :
    isOkE (comment anyAuthor denyComments targetAlways "c9" sampleDb
      "post9" sampleBody false sampleLoc none).2 = true ∧
    (comment anyAuthor denyComments targetAlways "c9" sampleDb "post9"
      sampleBody false sampleLoc none).1.length = sampleDb.length + 1 := by
  constructor
  · decide
  · decide

/-- Counterexample for C3 as stated: a request with `size = 0` is rejected by
the `Pager` validation with a BadRequest error instead of being served with
the clamped size 1, and `size = 1000` is likewise rejected instead of being
served as 50. -/
theorem c3_counterexample :
    validatePagerSize (some 0) = Except.error Err.badRequest ∧
    specClampSize 0 = 1 ∧
    validatePagerSize (some 1000) = Except.error Err.badRequest ∧
    specClampSize 1000 = 50 := by
  refine ⟨?_, by decide, ?_, by decide⟩
  · simp only [validatePagerSize]
    rw [if_neg (by decide : ¬ ((1:Int) ≤ 0 ∧ (0:Int) ≤ 50))]
  · simp only [validatePagerSize]
    rw [if_neg (by decide : ¬ ((1:Int) ≤ 1000 ∧ (1000:Int) ≤ 50))]

/-- Claim C3 (amended): every `size` outside [1,50] is rejected by the
`Pager` validation with a BadRequest error (no clamping occurs), and every
`size` inside [1,50] is accepted unchanged. -/
theorem c3_out_of_range_size_rejected (v : Int) :
    ((v < 1 ∨ 50 < v) →
      validatePagerSize (some v) = Except.error Err.badRequest) ∧
    (1 ≤ v → v ≤ 50 → validatePagerSize (some v) = Except.ok (some v)) := by
  constructor
  · intro h
    have hneg : ¬ (1 ≤ v ∧ v ≤ 50) := by omega
    simp only [validatePagerSize]
    rw [if_neg hneg]
  · intro h1 h2
    simp only [validatePagerSize]
    rw [if_pos ⟨h1, h2⟩]

/-- Witness for C3 at the boundary inputs 0 and 10. -/
theorem c3_witness :
    validatePagerSize (some 0) = Except.error Err.badRequest ∧
    validatePagerSize (some 10) = Except.ok (some 10) :=
  ⟨(c3_out_of_range_size_rejected 0).1 (Or.inl (by decide)),
   (c3_out_of_range_size_rejected 10).2 (by decide) (by decide)⟩

/-- Claim C7: for every listing call with `page ≥ 1` and `size` in [1,50],
the query window handed to the persistence gateway by the comments, posts
and notes listings has `skip = (page-1)*size` and `limit = size`. -/
theorem c7_pagination_window (page size : Nat) (_h1 : 1 ≤ page)
    (_h2 : 1 ≤ size) (_h3 : size ≤ 50) :
    (getCommentsByRefIdOptions page size).skip = (page - 1) * size ∧
    (getCommentsByRefIdOptions page size).limit = size ∧
    (getAllPostsOptions page size).skip = (page - 1) * size ∧
    (getAllPostsOptions page size).limit = size ∧
    (getNotesOptions page size).skip = (page - 1) * size ∧
    (getNotesOptions page size).limit = size :=
  ⟨rfl, rfl, rfl, rfl, rfl, rfl⟩

/-- Witness for C7 at page 2, size 10. -/
theorem c7_witness :
    (getCommentsByRefIdOptions 2 10).skip = (2 - 1) * 10 ∧
    (getCommentsByRefIdOptions 2 10).limit = 10 ∧
    (getAllPostsOptions 2 10).skip = (2 - 1) * 10 ∧
    (getAllPostsOptions 2 10).limit = 10 ∧
    (getNotesOptions 2 10).skip = (2 - 1) * 10 ∧
    (getNotesOptions 2 10).limit = 10 :=
  c7_pagination_window 2 10 (by decide) (by decide) (by decide)

/-- Claim C8: for every existing comment and every pair of states, both
moderation calls succeed — `moderate(id, s1)` then `moderate(id, s2)` — and
the final stored state is `s2`; no transition among Unread, Read, Junk is
refused.  Instantiated at `s1 = Junk`, `s2 = Read` this is the
junk-then-read scenario of the claim. -/
theorem c8_moderation_transitions_free (db : List CommentDoc) (i : String)
    (c : CommentDoc) (hfind : findById db i = some c)
    (s1 s2 : CommentState) :
    isOkE (modifyCommentState db i s1).2 = true ∧
    isOkE (modifyCommentState (modifyCommentState db i s1).1 i s2).2 = true ∧
    (findById (modifyCommentState (modifyCommentState db i s1).1 i s2).1
      i).map CommentDoc.state = some s2 := by
  have hf1 : ∀ x : CommentDoc,
      ((fun d : CommentDoc => { d with state := s1 }) x).id = x.id :=
    fun _ => rfl
  have hf2 : ∀ x : CommentDoc,
      ((fun d : CommentDoc => { d with state := s2 }) x).id = x.id :=
    fun _ => rfl
  have hstep1 : (modifyCommentState db i s1).1 =
      updateFirst db i (fun d : CommentDoc => { d with state := s1 }) := by
    simp [modifyCommentState, updateAsync, hfind]
  have h1 := findById_updateFirst_eq hfind hf1
  have hstep2 : (modifyCommentState
      (updateFirst db i (fun d : CommentDoc => { d with state := s1 }))
        i s2).1 =
      updateFirst
        (updateFirst db i (fun d : CommentDoc => { d with state := s1 })) i
        (fun d : CommentDoc => { d with state := s2 }) := by
    simp [modifyCommentState, updateAsync, h1]
  have h2 := findById_updateFirst_eq h1 hf2
  refine ⟨rfl, rfl, ?_⟩
  rw [hstep1, hstep2, h2]
  rfl

/-- Witness for C8: junk then read on the sample comment ends in Read. -/
theorem c8_witness :
    isOkE (modifyCommentState sampleDb "p1" CommentState.Junk).2 = true ∧
    isOkE (modifyCommentState
      (modifyCommentState sampleDb "p1" CommentState.Junk).1 "p1"
      CommentState.Read).2 = true ∧
    (findById (modifyCommentState
      (modifyCommentState sampleDb "p1" CommentState.Junk).1 "p1"
      CommentState.Read).1 "p1").map CommentDoc.state =
      some CommentState.Read :=
  c8_moderation_transitions_free sampleDb "p1" sampleParent (by decide)
    CommentState.Junk CommentState.Read

/-- Claim C9: `deletePost` removes the post row but leaves the comment
collection unchanged: its cleanup step deletes comments matching
`{pid: id}`, while comment documents carry the target reference in `ref` and
have no `pid` field, so the cascade matches nothing and every comment
survives. -/
theorem c9_delete_post_comment_frame (posts : List ContentDoc)
    (comments : List CommentDoc) (i : String)
    (huniq : posts.countP (fun p => p.id == i) ≤ 1) :
    (deletePost posts comments i).2 = comments ∧
    findPostById (deletePost posts comments i).1 i = none := by
  constructor
  · show List.filter _ comments = comments
    apply List.filter_eq_self.mpr
    intro c _
    simp [matchesEq, commentFieldVal]
  · show findPostById (deleteOnePost posts i) i = none
    induction posts with
    | nil => simp [deleteOnePost, findPostById, List.find?]
    | cons p rest ih =>
      by_cases hp : (p.id == i) = true
      · have hstep : (p :: rest).countP (fun x => x.id == i) =
            rest.countP (fun x => x.id == i) + 1 := by
          simp [List.countP_cons, hp]
        have hcnt : rest.countP (fun x => x.id == i) = 0 := by omega
        have hnone := findPostById_of_countP_zero hcnt
        simpa [deleteOnePost, hp] using hnone
      · have hp2 : (p.id == i) = false := by
          rw [Bool.not_eq_true] at hp
          exact hp
        have hstep : (p :: rest).countP (fun x => x.id == i) =
            rest.countP (fun x => x.id == i) := by
          simp [List.countP_cons, hp2]
        have ih2 := ih (by omega)
        show findPostById (if p.id == i then rest
          else p :: deleteOnePost rest i) i = none
        rw [hp2]
        simp only [Bool.false_eq_true, if_false]
        show (p :: deleteOnePost rest i).find? (fun x => x.id == i) = none
        rw [List.find?_cons]
        simp only [hp2]
        exact ih2

/-- Witness for C9 at the sample post and its attached comment. -/
theorem c9_witness :
    (deletePost samplePosts sampleComments "post9").2 = sampleComments ∧
    findPostById (deletePost samplePosts sampleComments "post9").1
      "post9" = none :=
  c9_delete_post_comment_frame samplePosts sampleComments "post9" (by decide)

/-- Claim C10: the visibility helper returns `{hide: false, password:
undefined}` for a guest and a condition admitting both hide values for the
master; consequently every row of a guest posts or notes listing is not
hidden and carries no password. -/
theorem c10_guest_listings_hide_password
    (sortFn : List ContentDoc → List ContentDoc)
    (hsort : ∀ l, List.Perm (sortFn l) l)
    (dbp dbn : List ContentDoc) (toDate : Int → Int) (year : Option Int)
    (page size : Nat) (d e : ContentDoc)
    (hd : d ∈ getAllData sortFn dbp false toDate year page size)
    (he : e ∈ getNotesData sortFn dbn false toDate year page size) :
    addConditionToSeeHideContent false =
      { hideOr := none, hideEq := some false, passwordUndef := true } ∧
    (∀ x, matchesVisibility (addConditionToSeeHideContent true) x = true) ∧
    (d.hide = false ∧ d.password = none) ∧
    (e.hide = false ∧ e.password = none) := by
  refine ⟨rfl, ?_, ?_, ?_⟩
  · intro x
    cases hx : x.hide <;>
      simp [addConditionToSeeHideContent, matchesVisibility, hx]
  · have hcond := findWithPaginator_guard hsort hd
    simp [matchesVisibility, addConditionToSeeHideContent,
      Option.isNone_iff_eq_none] at hcond
    exact ⟨hcond.1.1, hcond.1.2⟩
  · have hcond := findWithPaginator_guard hsort he
    simp [matchesVisibility, addConditionToSeeHideContent,
      Option.isNone_iff_eq_none] at hcond
    exact ⟨hcond.1.1, hcond.1.2⟩

/-- Witness for C10 at a concrete one-row store with the identity sort. -/
theorem c10_witness :
    addConditionToSeeHideContent false =
      { hideOr := none, hideEq := some false, passwordUndef := true } ∧
    (∀ x, matchesVisibility (addConditionToSeeHideContent true) x = true) ∧
    (samplePost.hide = false ∧ samplePost.password = none) ∧
    (samplePost.hide = false ∧ samplePost.password = none) :=
  c10_guest_listings_hide_password idSort (fun l => List.Perm.refl l)
    samplePosts samplePosts sampleToDate none 1 10 samplePost samplePost
    (by decide) (by decide)

end Focus
